import Mathlib

set_option maxRecDepth 8000

/-!
# Verification of `pyshortcuts/darwin.py` (`make_shortcut`)

A shallow embedding of the Darwin shortcut-creation module.  Paths are
strings, the filesystem is an association list from path strings to
entries, machine integers are `Nat` with explicit reduction mod `2^32`
where the source (via `hashlib.md5`) works with 32-bit words, and
external effects (path resolution, the default interpreter lookup and
subprocess invocation) are parameters of the embedding.
-/

/-! ## MD5 (as used by `hashlib.md5(cmd.encode()).hexdigest()` at darwin.py:206) -/

namespace MD5

/-- `2^32`, the word modulus of MD5's 32-bit arithmetic. -/
def M32 : Nat := 4294967296

/-- The 64 round constants `K[i] = floor(2^32 * |sin(i+1)|)` of RFC 1321. -/
def K : List Nat := [3614090360, 3905402710, 606105819, 3250441966, 4118548399, 1200080426, 2821735955, 4249261313, 1770035416, 2336552879, 4294925233, 2304563134, 1804603682, 4254626195, 2792965006, 1236535329, 4129170786, 3225465664, 643717713, 3921069994, 3593408605, 38016083, 3634488961, 3889429448, 568446438, 3275163606, 4107603335, 1163531501, 2850285829, 4243563512, 1735328473, 2368359562, 4294588738, 2272392833, 1839030562, 4259657740, 2763975236, 1272893353, 4139469664, 3200236656, 681279174, 3936430074, 3572445317, 76029189, 3654602809, 3873151461, 530742520, 3299628645, 4096336452, 1126891415, 2878612391, 4237533241, 1700485571, 2399980690, 4293915773, 2240044497, 1873313359, 4264355552, 2734768916, 1309151649, 4149444226, 3174756917, 718787259, 3951481745]

/-- The per-round left-rotation amounts of RFC 1321. -/
def S : List Nat := [7, 12, 17, 22, 7, 12, 17, 22, 7, 12, 17, 22, 7, 12, 17, 22, 5, 9, 14, 20, 5, 9, 14, 20, 5, 9, 14, 20, 5, 9, 14, 20, 4, 11, 16, 23, 4, 11, 16, 23, 4, 11, 16, 23, 4, 11, 16, 23, 6, 10, 15, 21, 6, 10, 15, 21, 6, 10, 15, 21, 6, 10, 15, 21]

/-- 32-bit left rotation on a word already reduced mod `2^32`. -/
def rotl (x n : Nat) : Nat := ((x <<< n) % M32) ||| (x >>> (32 - n))

/-- Round function F: `(b & c) | (~b & d)` with `~` as xor against the 32-bit mask. -/
def mixF (b c d : Nat) : Nat := (b &&& c) ||| ((b ^^^ 4294967295) &&& d)

/-- Round function G: `(d & b) | (~d & c)`. -/
def mixG (b c d : Nat) : Nat := (d &&& b) ||| ((d ^^^ 4294967295) &&& c)

/-- Round function H: `b ^ c ^ d`. -/
def mixH (b c d : Nat) : Nat := b ^^^ c ^^^ d

/-- Round function I: `c ^ (b | ~d)`. -/
def mixI (b c d : Nat) : Nat := c ^^^ (b ||| (d ^^^ 4294967295))

/-- `count` little-endian bytes of `n`. -/
def leBytes (n : Nat) : Nat → List Nat
  | 0 => []
  | k + 1 => (n % 256) :: leBytes (n / 256) k

/-- MD5 padding: append `0x80`, zero bytes up to 56 mod 64, then the
bit length as 8 little-endian bytes. -/
def padMsg (msg : List Nat) : List Nat :=
  let len := msg.length
  let zeros := (119 - (len % 64)) % 64
  msg ++ 128 :: List.replicate zeros 0 ++ leBytes ((len * 8) % (2 ^ 64)) 8

/-- Split a 64-byte block into 16 little-endian 32-bit words. -/
def toWords : List Nat → List Nat
  | b0 :: b1 :: b2 :: b3 :: rest =>
      (b0 + 256 * b1 + 65536 * b2 + 16777216 * b3) :: toWords rest
  | _ => []

/-- One MD5 round on state `(a, b, c, d)` with message words `m`. -/
def md5Step (m : List Nat) (st : Nat × Nat × Nat × Nat) (i : Nat) :
    Nat × Nat × Nat × Nat :=
  let (a, b, c, d) := st
  let fg : Nat × Nat :=
    if i < 16 then (mixF b c d, i)
    else if i < 32 then (mixG b c d, (5 * i + 1) % 16)
    else if i < 48 then (mixH b c d, (3 * i + 5) % 16)
    else (mixI b c d, (7 * i) % 16)
  let f := (fg.1 + a + K.getD i 0 + m.getD fg.2 0) % M32
  (d, (b + rotl f (S.getD i 0)) % M32, b, c)

/-- Process one 64-byte block: 64 rounds, then add the result into the chaining state. -/
def processBlock (bytes : List Nat) (st : Nat × Nat × Nat × Nat) (i : Nat) :
    Nat × Nat × Nat × Nat :=
  let m := toWords ((bytes.drop (64 * i)).take 64)
  let st2 := (List.range 64).foldl (md5Step m) st
  ((st.1 + st2.1) % M32, (st.2.1 + st2.2.1) % M32,
   (st.2.2.1 + st2.2.2.1) % M32, (st.2.2.2 + st2.2.2.2) % M32)

/-- Process the padded message 64 bytes at a time, updating the chaining state. -/
def processBlocks (st : Nat × Nat × Nat × Nat) (bytes : List Nat) :
    Nat × Nat × Nat × Nat :=
  (List.range (bytes.length / 64)).foldl (processBlock bytes) st

/-- Lowercase hex digit for `n < 16`. -/
def hexDigitChar (n : Nat) : Char := if n < 10 then Char.ofNat (48 + n) else Char.ofNat (87 + n)

/-- Two lowercase hex characters of a byte. -/
def byteHex (b : Nat) : List Char := [hexDigitChar (b / 16), hexDigitChar (b % 16)]

/-- The characters of `hashlib.md5(bytes).hexdigest()`: 32 lowercase hex digits. -/
def md5hexChars (msg : List Nat) : List Char :=
  let r := processBlocks (1732584193, 4023233417, 2562383102, 271733878) (padMsg msg)
  (leBytes r.1 4 ++ leBytes r.2.1 4 ++ leBytes r.2.2.1 4 ++
   leBytes r.2.2.2 4).flatMap byteHex

/-- `hashlib.md5(bytes).hexdigest()` as a string. -/
def md5hex (msg : List Nat) : String := String.mk (md5hexChars msg)

end MD5

/-- UTF-8 encoding of a single code point, as `str.encode()` produces per character. -/
def utf8EncodeChar (n : Nat) : List Nat :=
  if n < 128 then [n]
  else if n < 2048 then [192 ||| (n >>> 6), 128 ||| (n &&& 63)]
  else if n < 65536 then
    [224 ||| (n >>> 12), 128 ||| ((n >>> 6) &&& 63), 128 ||| (n &&& 63)]
  else
    [240 ||| (n >>> 18), 128 ||| ((n >>> 12) &&& 63),
     128 ||| ((n >>> 6) &&& 63), 128 ||| (n &&& 63)]

/-- `s.encode()`: the UTF-8 byte sequence of a string. -/
def strEncode (s : String) : List Nat := s.data.flatMap (fun c => utf8EncodeChar c.toNat)

/-! ## The shortcut record and external environment -/

/-- The fields of the record returned by `shortcut()` (built in the
`.shortcut` module, outside this source file) that `make_shortcut` reads.
The record enters the embedding as data. -/
structure Scut where
  script : String
  full_script : String
  arguments : String
  name : String
  description : String
  working_dir : String
  desktop_dir : String
  target : String
  icon : String
deriving Repr, DecidableEq

/-- Outcome of a `subprocess.run` call: the process completed (with some
exit code; `check=False` means no exit-code exception), or the call raised
(for example because the tool binary is missing). -/
inductive ProcOutcome
  | completed (exitCode : Int)
  | raised (msg : String)
deriving Repr, DecidableEq

/-- External operations `make_shortcut` consumes: `Path(p).resolve().as_posix()`,
`get_pyexe()` (from `.utils`, outside this source file), the default mode
`open(p, 'w')` gives a newly created file, and the behaviour of
`subprocess.run` on an argument vector. -/
structure Env where
  resolve : String → String
  pyexe : String
  fileMode : Nat
  runProc : List String → ProcOutcome

/-! ## Command assembly (darwin.py lines 79–88 and 129–133) -/

/-- Lines 79–88: pick the script form and the executable.  With `noexe`
the raw `scut.script` is used and the executable is cleared; otherwise the
executable (defaulting to `get_pyexe()`) is resolved, and dropped when the
resolved script path equals its resolved path.  Returns
`(full_script, executable)`. -/
def selectExecutable (env : Env) (scut : Scut) (executable : Option String)
    (noexe : Bool) : String × String :=
  if noexe then
    (scut.script, "")
  else
    let e := env.resolve (executable.getD env.pyexe)
    if env.resolve scut.full_script = env.resolve e then (scut.full_script, "")
    else (scut.full_script, e)

/-- Lines 129–133: the assembled command string; Python's truthiness test
on `executable` is the empty-string test. -/
def buildCmd (executable full_script arguments : String) : String :=
  if executable ≠ "" then executable ++ " " ++ full_script ++ " " ++ arguments
  else full_script ++ " " ++ arguments

/-- The assembled command a call with these arguments produces. -/
def assembledCommand (env : Env) (scut : Scut) (executable : Option String)
    (noexe : Bool) : String :=
  let fe := selectExecutable env scut executable noexe
  buildCmd fe.2 fe.1 scut.arguments

/-! ## GUI bundle identity (darwin.py lines 203–219) -/

/-- Line 206: `f"{scut.name}-{hashlib.md5(cmd.encode()).hexdigest()[:8]}"`
(the braces shown are Python's interpolation syntax in the source). -/
def bundle_id_base (name cmd : String) : String :=
  name ++ "-" ++ String.mk ((MD5.md5hexChars (strEncode cmd)).take 8)

/-- Line 219: the `CFBundleIdentifier` value written into the GUI bundle's
Info.plist. -/
def bundleIdentifier (name cmd : String) : String :=
  "com.pyshortcuts." ++ bundle_id_base name cmd

/-! ## Terminal-strategy quoting (darwin.py lines 275–281) -/

/-- Line 276: `cmd.replace('"', '\\"')` — backslash-escape every double
quote of the command. -/
def escapeQuotes : List Char → List Char
  | [] => []
  | c :: rest =>
      if c = '"' then '\\' :: '"' :: escapeQuotes rest
      else c :: escapeQuotes rest

/-- Line 279: the `do script` line of the launcher, with the escaped
command embedded in the quoted instruction literal. -/
def doScriptLine (cmd : String) : String :=
  "    do script \"" ++ String.mk (escapeQuotes cmd.data) ++ "\""

/-- Lines 277–281 joined by line 285: the full AppleScript launcher text. -/
def launcherText (cmd : String) : String :=
  String.intercalate "\n"
    ["#!/usr/bin/osascript",
     "tell application \"Terminal\"",
     doScriptLine cmd,
     "end tell",
     ""]

/-- Decode one backslash escape the way the script host does: `\"` is a
quote, `\\` a backslash, `\n`/`\r`/`\t` the control characters; anything
else is rejected. -/
def decodeEscape (c : Char) : Option Char :=
  if c = '"' then some '"'
  else if c = '\\' then some '\\'
  else if c = 'n' then some '\n'
  else if c = 'r' then some '\r'
  else if c = 't' then some '\t'
  else none

/-- Modelled from the spec: the shell/script host's parsing of a quoted
instruction literal (the host itself is outside this repository).  Input
is the text after the opening quote; a backslash escapes the next
character, an unescaped quote ends the literal.  Returns the parsed
string and the remaining input. -/
def parseQuoted : List Char → Option (List Char × List Char)
  | [] => none
  | c :: rest =>
      if c = '"' then some ([], rest)
      else if c = '\\' then
        match rest with
        | [] => none
        | e :: rest2 =>
            match decodeEscape e, parseQuoted rest2 with
            | some d, some (s, r) => some (d :: s, r)
            | _, _ => none
      else
        match parseQuoted rest with
        | some (s, r) => some (c :: s, r)
        | none => none

/-! ## GUI workflow command string (darwin.py line 181) -/

/-- Line 181: the text content of the workflow's `COMMAND_STRING` element —
the assembled command inserted verbatim, then the XML-escaped
` > /dev/null 2>&1 &` redirect-and-background suffix. -/
def commandStringElement (cmd : String) : String :=
  cmd ++ " &gt; /dev/null 2&gt;&amp;1 &amp;"

/-- Modelled from the spec: XML entity decoding applied by the consumer of
the workflow document (the parser is outside this repository). -/
def xmlUnescapeAux : Nat → List Char → List Char
  | 0, l => l
  | _, [] => []
  | fuel + 1, c :: rest =>
      if c = '&' then
        if rest.take 3 = ['g', 't', ';'] then '>' :: xmlUnescapeAux fuel (rest.drop 3)
        else if rest.take 3 = ['l', 't', ';'] then '<' :: xmlUnescapeAux fuel (rest.drop 3)
        else if rest.take 4 = ['a', 'm', 'p', ';'] then '&' :: xmlUnescapeAux fuel (rest.drop 4)
        else if rest.take 5 = ['q', 'u', 'o', 't', ';'] then '"' :: xmlUnescapeAux fuel (rest.drop 5)
        else if rest.take 5 = ['a', 'p', 'o', 's', ';'] then '\'' :: xmlUnescapeAux fuel (rest.drop 5)
        else c :: xmlUnescapeAux fuel rest
      else c :: xmlUnescapeAux fuel rest

/-- Entity decoding of a whole character list (the list's length bounds
the number of decoding steps). -/
def xmlUnescape (l : List Char) : List Char := xmlUnescapeAux l.length l

/-! ## Filesystem model -/

/-- A filesystem entry: a directory, or a file with contents and mode. -/
inductive FSEntry
  | dir : FSEntry
  | file (content : String) (mode : Nat) : FSEntry
deriving Repr, DecidableEq

/-- The filesystem: an association list from absolute path strings to
entries.  All mutating operations below keep at most one binding per path. -/
abbrev FS := List (String × FSEntry)

/-- The entry at path `p`, if any. -/
def FS.lookupE : FS → String → Option FSEntry
  | [], _ => none
  | (p, e) :: rest, q => if q = p then some e else FS.lookupE rest q

/-- `Path(p).exists()` in the model. -/
def FS.existsP (fs : FS) (p : String) : Bool := (fs.lookupE p).isSome

/-- Whether the character list `p` begins the character list `q`. -/
def listStarts : List Char → List Char → Bool
  | [], _ => true
  | _ :: _, [] => false
  | a :: p, b :: q => a = b && listStarts p q

/-- Whether path `q` lies strictly under directory `p` (i.e. `p ++ "/"`
begins `q`). -/
def isUnder (p q : String) : Bool := listStarts (p.data ++ ['/']) q.data

/-- Whether path `q` is `p` itself or lies under it. -/
def underEq (p q : String) : Bool := decide (q = p) || isUnder p q

/-- Replace any binding of `p` by the given entry. -/
def FS.insertE (fs : FS) (p : String) (e : FSEntry) : FS :=
  (p, e) :: fs.filter (fun x => !decide (x.1 = p))

/-- `shutil.rmtree(p)`: remove the entry at `p` and every entry under it. -/
def FS.rmtree (fs : FS) (p : String) : FS :=
  fs.filter (fun x => !underEq p x.1)

/-- `os.mkdir(p)`: create a directory, failing if an entry already exists
at `p`.  (The missing-parent failure of `os.mkdir` is not modelled; no
claim under verification depends on it.) -/
def FS.mkdir (fs : FS) (p : String) : Except String FS :=
  if fs.existsP p then .error ("FileExistsError: " ++ p)
  else .ok (fs.insertE p .dir)

/-- `Path(a, b).as_posix()` for a relative second component. -/
def pjoin (a b : String) : String := a ++ "/" ++ b

/-- Split a character list at every `/`, keeping empty components, exactly
as Python's `str.split("/")` does. -/
def splitOnSlash : List Char → List (List Char)
  | [] => [[]]
  | c :: rest =>
      if c = '/' then [] :: splitOnSlash rest
      else
        match splitOnSlash rest with
        | h :: t => (c :: h) :: t
        | [] => [[c]]

/-- Rejoin path components with `/`. -/
def joinSlash : List (List Char) → List Char
  | [] => []
  | [x] => x
  | x :: rest => x ++ '/' :: joinSlash rest

/-- Every ancestor path of `p` at a `/` boundary, `p` itself included
(`""`, an artifact of splitting an absolute path, stands for the root,
which always exists and is never created). -/
def ancestorPaths (p : String) : List String :=
  let parts := splitOnSlash p.data
  (List.range parts.length).map (fun i => String.mk (joinSlash (parts.take (i + 1))))

/-- Create `q` unless it already exists (the empty string stands for the
root, which always exists). -/
def mkdirIfMissing (fs : FS) (q : String) : FS :=
  if fs.existsP q || decide (q = "") then fs else fs.insertE q .dir

/-- `os.makedirs(p)`: create any missing ancestor directories, then the
directory itself (callers guard against `p` already existing). -/
def FS.makedirs (fs : FS) (p : String) : FS :=
  ((ancestorPaths p).foldl mkdirIfMissing fs).insertE p .dir

/-- `open(p, 'w')` followed by a write: create or truncate the file at `p`
with the default creation mode `mode`. -/
def FS.writeFile (mode : Nat) (fs : FS) (p : String) (content : String) : FS :=
  fs.insertE p (.file content mode)

/-- `os.chmod(p, mode)`: update the mode of the file at `p`. -/
def FS.chmod (fs : FS) (p : String) (mode : Nat) : Except String FS :=
  match fs.lookupE p with
  | some (.file c _) => .ok (fs.insertE p (.file c mode))
  | some .dir => .ok fs
  | none => .error ("FileNotFoundError: " ++ p)

/-- `shutil.copy(src, dst)`: copy file contents and permission mode. -/
def FS.copy (fs : FS) (src dst : String) : Except String FS :=
  match fs.lookupE src with
  | some (.file c m) => .ok (fs.insertE dst (.file c m))
  | _ => .error ("FileNotFoundError: " ++ src)

/-! ## Metadata documents -/

/-- Lines 115–127 with the line-273 `info.format(**opts)` substitution
applied: the Terminal-strategy Info.plist text. -/
def infoTerminal (desc name : String) : String :=
  "<?xml version=\"1.0\" encoding=\"UTF-8\"?>\n" ++
  "<!DOCTYPE plist PUBLIC \"-//Apple Computer//DTD PLIST 1.0//EN\"\n" ++
  "\"http://www.apple.com/DTDs/PropertyList-1.0.dtd\">\n" ++
  "<plist version=\"1.0\">\n" ++
  "  <dict>\n" ++
  "  <key>CFBundleGetInfoString</key> <string>" ++ desc ++ "</string>\n" ++
  "  <key>CFBundleName</key> <string>" ++ name ++ "</string>\n" ++
  "  <key>CFBundleExecutable</key> <string>" ++ name ++ "</string>\n" ++
  "  <key>CFBundleIconFile</key> <string>" ++ name ++ "</string>\n" ++
  "  <key>CFBundlePackageType</key> <string>APPL</string>\n" ++
  "  </dict>\n" ++
  "</plist>\n"

/-- Lines 139–180: the part of the workflow document before the
`COMMAND_STRING` element content, ending in the element's opening
`<string>` tag. -/
def wfPre : String :=
  "<?xml version=\"1.0\" encoding=\"UTF-8\"?>\n" ++
  "<!DOCTYPE plist PUBLIC \"-//Apple//DTD PLIST 1.0//EN\" \"http://www.apple.com/DTDs/PropertyList-1.0.dtd\">\n" ++
  "<plist version=\"1.0\">\n" ++
  "<dict>\n" ++
  "    <key>AMApplicationBuild</key>\n    <string>523</string>\n" ++
  "    <key>AMApplicationVersion</key>\n    <string>2.10</string>\n" ++
  "    <key>AMDocumentVersion</key>\n    <string>2</string>\n" ++
  "    <key>actions</key>\n    <array>\n        <dict>\n" ++
  "            <key>action</key>\n            <dict>\n" ++
  "                <key>AMActionVersion</key>\n                <string>1.0.2</string>\n" ++
  "                <key>AMApplication</key>\n                <array>\n" ++
  "                    <string>Automator</string>\n                </array>\n" ++
  "                <key>AMParameterProperties</key>\n                <dict>\n" ++
  "                    <key>source</key>\n                    <dict/>\n" ++
  "                </dict>\n" ++
  "                <key>AMProvides</key>\n                <dict>\n" ++
  "                    <key>Container</key>\n                    <string>List</string>\n" ++
  "                    <key>Types</key>\n                    <array>\n" ++
  "                        <string>com.apple.applescript.object</string>\n" ++
  "                    </array>\n                </dict>\n" ++
  "                <key>ActionBundlePath</key>\n" ++
  "                <string>/System/Library/Automator/Run Shell Script.action</string>\n" ++
  "                <key>ActionName</key>\n                <string>Run Shell Script</string>\n" ++
  "                <key>ActionParameters</key>\n                <dict>\n" ++
  "                    <key>COMMAND_STRING</key>\n" ++
  "                    <string>"

/-- Lines 181–197: the part of the workflow document after the
`COMMAND_STRING` element content, starting with the closing `</string>`. -/
def wfPost : String :=
  "</string>\n" ++
  "                    <key>CheckedForUserDefaultShell</key>\n                    <true/>\n" ++
  "                    <key>inputMethod</key>\n                    <integer>0</integer>\n" ++
  "                    <key>shell</key>\n                    <string>/bin/bash</string>\n" ++
  "                    <key>source</key>\n                    <string></string>\n" ++
  "                </dict>\n" ++
  "                <key>BundleIdentifier</key>\n" ++
  "                <string>com.apple.RunShellScript</string>\n" ++
  "            </dict>\n        </dict>\n    </array>\n</dict>\n</plist>"

/-- Lines 139–197: the Automator workflow document, with the
`COMMAND_STRING` element content of line 181. -/
def workflowContent (cmd : String) : String :=
  wfPre ++ commandStringElement cmd ++ wfPost

/-- Lines 208–241: the GUI-strategy Info.plist text, carrying the stable
bundle identifier of line 219. -/
def infoAutomator (name cmd : String) : String :=
  "<?xml version=\"1.0\" encoding=\"UTF-8\"?>\n" ++
  "<!DOCTYPE plist PUBLIC \"-//Apple//DTD PLIST 1.0//EN\" \"http://www.apple.com/DTDs/PropertyList-1.0.dtd\">\n" ++
  "<plist version=\"1.0\">\n<dict>\n" ++
  "    <key>CFBundleDevelopmentRegion</key>\n    <string>English</string>\n" ++
  "    <key>CFBundleExecutable</key>\n    <string>Application Stub</string>\n" ++
  "    <key>CFBundleIconFile</key>\n    <string>" ++ name ++ "</string>\n" ++
  "    <key>CFBundleIdentifier</key>\n    <string>" ++ bundleIdentifier name cmd ++ "</string>\n" ++
  "    <key>CFBundleInfoDictionaryVersion</key>\n    <string>6.0</string>\n" ++
  "    <key>CFBundleName</key>\n    <string>" ++ name ++ "</string>\n" ++
  "    <key>CFBundlePackageType</key>\n    <string>APPL</string>\n" ++
  "    <key>CFBundleShortVersionString</key>\n    <string>1.0</string>\n" ++
  "    <key>CFBundleSignature</key>\n    <string>????</string>\n" ++
  "    <key>CFBundleVersion</key>\n    <string>1.0</string>\n" ++
  "    <key>LSMinimumSystemVersion</key>\n    <string>10.5</string>\n" ++
  "    <key>LSUIElement</key>\n    <false/>\n" ++
  "    <key>NSMainNibFile</key>\n    <string>ApplicationStub</string>\n" ++
  "    <key>NSPrincipalClass</key>\n    <string>NSApplication</string>\n" ++
  "</dict>\n</plist>"

/-! ## The build pipeline (darwin.py lines 41–305) -/

/-- What a completed `make_shortcut` call produced: the returned value,
the filesystem, and the `subprocess` invocations attempted (in order). -/
structure BuildOut where
  result : Option Scut
  fs : FS
  procs : List (List String)
deriving Repr, DecidableEq

/-- The resolved bundle destination of a call (line 96). -/
def destPath (env : Env) (scut : Scut) : String :=
  env.resolve (pjoin scut.desktop_dir scut.target)

/-- The Terminal-strategy launcher path `Contents/MacOS/<name>` (line 283). -/
def launcherPath (dest name : String) : String :=
  pjoin (pjoin (pjoin dest "Contents") "MacOS") name

/-- Lines 90–91: `os.makedirs(scut.desktop_dir)` when the desktop
directory does not yet exist. -/
def ensureDesktopDir (fs : FS) (desktop_dir : String) : FS :=
  if fs.existsP desktop_dir then fs else fs.makedirs desktop_dir

/-- Lines 96–104: resolve the bundle destination, remove any existing
entry there recursively, then create the bundle directory and its three
subdirectories. -/
def bundleSkeleton (fs : FS) (dest : String) : Except String FS := do
  let fs := if fs.existsP dest then fs.rmtree dest else fs
  let fs ← fs.mkdir dest
  let fs ← fs.mkdir (pjoin dest "Contents")
  let fs ← fs.mkdir (pjoin (pjoin dest "Contents") "MacOS")
  let fs ← fs.mkdir (pjoin (pjoin dest "Contents") "Resources")
  return fs

/-- Line 248: the first candidate stub location. -/
def stubA : String :=
  "/System/Library/CoreServices/Automator Application Stub.app/Contents/MacOS/Automator Application Stub"

/-- Line 249: the second candidate stub location. -/
def stubB : String :=
  "/System/Library/CoreServices/Automator Launcher.app/Contents/MacOS/Automator Launcher"

/-- Lines 247–250: the fixed, ordered candidate locations of the Automator
stub binary. -/
def automator_stub_paths : List String := [stubA, stubB]

/-- Lines 252–256: probe the candidates in order, first existing one wins. -/
def findStub (fs : FS) : Option String :=
  automator_stub_paths.find? (fun p => fs.existsP p)

/-- Lines 259–263: the message of the `FileNotFoundError` raised when no
candidate stub location exists. -/
def stubErrorMsg : String :=
  "Could not find Automator Application Stub. " ++
  "This may not be supported on your macOS version. " ++
  "Please use terminal=True."

/-- Lines 246–266: locate the stub and copy it into the bundle's
`Contents/MacOS/Application Stub` slot, or raise. -/
def installStub (fs : FS) (dest : String) : Except String FS :=
  match findStub fs with
  | none => .error stubErrorMsg
  | some stub => fs.copy stub (pjoin (pjoin (pjoin dest "Contents") "MacOS") "Application Stub")

/-- Lines 136–269: the GUI ("Automator") strategy: write the workflow
document and the Info.plist, install the stub, copy the icon. -/
def guiBranch (mode : Nat) (scut : Scut) (dest cmd : String) (fs : FS) :
    Except String FS := do
  let fs := FS.writeFile mode fs
    (pjoin (pjoin (pjoin dest "Contents") "Resources") "document.wflow")
    (workflowContent cmd)
  let fs := FS.writeFile mode fs (pjoin (pjoin dest "Contents") "Info.plist")
    (infoAutomator scut.name cmd)
  let fs ← installStub fs dest
  fs.copy scut.icon
    (pjoin (pjoin (pjoin dest "Contents") "Resources") (scut.name ++ ".icns"))

/-- Lines 270–289: the Terminal strategy: write the Info.plist and the
AppleScript launcher, mark the launcher executable (mode `0o755` = 493),
copy the icon. -/
def terminalBranch (mode : Nat) (scut : Scut) (dest cmd : String) (fs : FS) :
    Except String FS := do
  let fs := FS.writeFile mode fs (pjoin (pjoin dest "Contents") "Info.plist")
    (infoTerminal scut.description scut.name)
  let launcher := launcherPath dest scut.name
  let fs := FS.writeFile mode fs launcher (launcherText cmd)
  let fs ← fs.chmod launcher 493
  fs.copy scut.icon
    (pjoin (pjoin (pjoin dest "Contents") "Resources") (scut.name ++ ".icns"))

/-- `subprocess.run(args, capture_output=True, check=False)`: the completed
exit code, or a raised exception. -/
def runSubprocess (env : Env) (args : List String) : Except String Int :=
  match env.runProc args with
  | .completed code => .ok code
  | .raised msg => .error msg

/-- `try: ... except Exception: pass` around a subprocess call. -/
def tryPass (x : Except String Int) : Except String Unit :=
  Except.tryCatch (x.map fun _ => ()) (fun _ => .ok ())

/-- The `codesign` invocation of line 300. -/
def codesignArgs (dest : String) : List String :=
  ["codesign", "--force", "--deep", "--sign", "-", dest]

/-- Lines 291–303: clear quarantine attributes (both strategies), then
ad-hoc sign (GUI strategy only); both wrapped in `try`/`except Exception: pass`.
Returns the invocations attempted. -/
def postProcess (env : Env) (terminal : Bool) (dest : String) :
    Except String (List (List String)) := do
  let _ ← tryPass (runSubprocess env ["xattr", "-cr", dest])
  if !terminal then
    let _ ← tryPass (runSubprocess env (codesignArgs dest))
    return [["xattr", "-cr", dest], codesignArgs dest]
  else
    return [["xattr", "-cr", dest]]

/-- Lines 41–305: `make_shortcut`.  The record built by `shortcut()` enters
as `scut`; `terminal`, `desktop`, `executable` and `noexe` are the keyword
arguments the function branches on.  Filesystem and stub failures
propagate as `.error`; the `.error` value carries the message of the
raised exception. -/
def make_shortcut (env : Env) (scut : Scut) (terminal desktop : Bool)
    (executable : Option String) (noexe : Bool) (fs : FS) :
    Except String BuildOut := do
  if !desktop then
    return { result := none, fs := fs, procs := [] }
  let fe := selectExecutable env scut executable noexe
  let fs := ensureDesktopDir fs scut.desktop_dir
  let dest := destPath env scut
  let fs ← bundleSkeleton fs dest
  let cmd := buildCmd fe.2 fe.1 scut.arguments
  let fs ← if !terminal then guiBranch env.fileMode scut dest cmd fs
           else terminalBranch env.fileMode scut dest cmd fs
  let procs ← postProcess env terminal dest
  return { result := some scut, fs := fs, procs := procs }

/-! ## Named paths and concrete test data -/

/-- The four directories the skeleton creates, in creation order. -/
def skeletonPaths (dest : String) : List String :=
  [dest, pjoin dest "Contents",
   pjoin (pjoin dest "Contents") "MacOS",
   pjoin (pjoin dest "Contents") "Resources"]

/-- A concrete environment for exercising the theorems: resolution is the
identity away from the empty string, the interpreter is a fixed path, new
files get mode `0o644` = 420, and every subprocess completes with exit
code 0. -/
def envW : Env where
  resolve := fun s => if s = "" then "/E" else s
  pyexe := "/usr/bin/python3"
  fileMode := 420
  runProc := fun _ => ProcOutcome.completed 0

/-- A concrete shortcut record for exercising the theorems. -/
def scutW : Scut where
  script := "/home/u/hello.py"
  full_script := "/home/u/hello.py"
  arguments := "--x 1"
  name := "Hello"
  description := "Hello app"
  working_dir := ""
  desktop_dir := "/home/u/Desktop"
  target := "Hello.app"
  icon := "/icons/py.icns"

/-- A concrete starting filesystem: the icon, the home tree, and the first
Automator stub candidate are present. -/
def fsW : FS :=
  [("/icons/py.icns", .file "ICON" 420),
   ("/home/u/Desktop", .dir),
   ("/home/u", .dir),
   ("/System/Library/CoreServices/Automator Application Stub.app/Contents/MacOS/Automator Application Stub",
    .file "STUB" 493)]

/-- The same filesystem with no stub candidate anywhere. -/
def fsNoStub : FS :=
  [("/icons/py.icns", .file "ICON" 420),
   ("/home/u/Desktop", .dir),
   ("/home/u", .dir)]

/-- The output of the concrete Terminal-strategy build used by witnesses. -/
def outTermW : BuildOut :=
  (make_shortcut envW scutW true true none false fsW).toOption.getD
    { result := none, fs := [], procs := [] }

/-! ## Helper lemmas -/

theorem lookupE_filterKey (g : String → Bool) (q : String) (fs : FS) :
    FS.lookupE (fs.filter (fun x => g x.1)) q = if g q then fs.lookupE q else none := by
  induction fs with
  | nil => simp [FS.lookupE]
  | cons hd tl ih =>
      obtain ⟨p, e⟩ := hd
      by_cases hq : q = p
      · subst hq
        by_cases hg : g q <;> simp [List.filter_cons, hg, FS.lookupE, ih]
      · by_cases hg : g p <;> simp [List.filter_cons, hg, FS.lookupE, hq, ih]

theorem lookupE_insertE (fs : FS) (p : String) (e : FSEntry) (q : String) :
    (fs.insertE p e).lookupE q = if q = p then some e else fs.lookupE q := by
  by_cases hq : q = p
  · simp [FS.insertE, FS.lookupE, hq]
  · simp [FS.insertE, FS.lookupE, hq, lookupE_filterKey (fun k => !decide (k = p)) q fs]

theorem lookupE_rmtree (fs : FS) (p q : String) :
    (fs.rmtree p).lookupE q = if underEq p q then none else fs.lookupE q := by
  have h := lookupE_filterKey (fun k => !underEq p k) q fs
  by_cases hu : underEq p q = true <;> simp [FS.rmtree, hu] at h ⊢ <;> exact h

theorem listStarts_append (p r : List Char) : listStarts p (p ++ r) = true := by
  induction p with
  | nil => rfl
  | cons a t ih => simp [listStarts, ih]

theorem pjoin_data (a b : String) : (pjoin a b).data = a.data ++ '/' :: b.data := by
  show ((a ++ "/") ++ b).data = _
  rw [String.data_append, String.data_append, List.append_assoc]
  rfl

theorem isUnder_pjoin (d x : String) : isUnder d (pjoin d x) = true := by
  have h := listStarts_append (d.data ++ ['/']) x.data
  simp only [isUnder, pjoin_data]
  simpa using h

theorem pjoin_assoc (a b c : String) : pjoin (pjoin a b) c = pjoin a (pjoin b c) := by
  simp [pjoin, String.append_assoc]

theorem pjoin_length (a b : String) : (pjoin a b).length = a.length + 1 + b.length := by
  simp [pjoin, String.length_append]
  rfl

theorem underEq_self (p : String) : underEq p p = true := by simp [underEq]

theorem underEq_pjoin (d x : String) : underEq d (pjoin d x) = true := by
  simp [underEq, isUnder_pjoin]

theorem mkdir_ok (fs : FS) (p : String) (h : fs.existsP p = false) :
    fs.mkdir p = .ok (fs.insertE p .dir) := by
  simp [FS.mkdir, h]

/-! ## C6: desktop=false is a pure no-op -/

/-- C6: for every descriptor with `desktop=false`, `make_shortcut` returns
`None`, leaves the filesystem untouched, and attempts no subprocess
invocation. -/
theorem desktop_false_noop (env : Env) (scut : Scut) (terminal : Bool)
    (executable : Option String) (noexe : Bool) (fs : FS) :
    make_shortcut env scut terminal false executable noexe fs =
      .ok { result := none, fs := fs, procs := [] } := rfl

/-! ## C1: command assembly -/

/-- C1: with `noexe` the assembled command is the script followed by the
arguments and the executable is cleared, whatever executable was given;
without `noexe`, when the resolved executable equals the resolved script
the executable is dropped and the command is `S A`; otherwise the command
is `E S A`, space-joined.  (`hid` records that path resolution is
idempotent, as `Path.resolve` is.) -/
theorem command_assembly (env : Env) (scut : Scut) (exeOpt : Option String)
    (hid : ∀ s, env.resolve (env.resolve s) = env.resolve s) :
    (assembledCommand env scut exeOpt true = scut.script ++ " " ++ scut.arguments ∧
     (selectExecutable env scut exeOpt true).2 = "") ∧
    (env.resolve scut.full_script = env.resolve (exeOpt.getD env.pyexe) →
       assembledCommand env scut exeOpt false = scut.full_script ++ " " ++ scut.arguments) ∧
    (env.resolve scut.full_script ≠ env.resolve (exeOpt.getD env.pyexe) →
     env.resolve (exeOpt.getD env.pyexe) ≠ "" →
       assembledCommand env scut exeOpt false =
         env.resolve (exeOpt.getD env.pyexe) ++ " " ++ scut.full_script ++ " " ++ scut.arguments) := by
  refine ⟨⟨by simp [assembledCommand, selectExecutable, buildCmd], by simp [selectExecutable]⟩, ?_, ?_⟩
  · intro h
    simp [assembledCommand, selectExecutable, hid, h, buildCmd]
  · intro h hne
    simp [assembledCommand, selectExecutable, hid, h, buildCmd, hne]

/-- Witness for C1 at a concrete environment, record and executable. -/
theorem command_assembly_witness :
    assembledCommand envW scutW (some "/usr/lib/pyexe") false =
      envW.resolve ((some "/usr/lib/pyexe").getD envW.pyexe) ++ " " ++
        scutW.full_script ++ " " ++ scutW.arguments := by
  have hid : ∀ s, envW.resolve (envW.resolve s) = envW.resolve s := by
    intro s
    by_cases h : s = "" <;> simp [envW, h]
  exact (command_assembly envW scutW (some "/usr/lib/pyexe") hid).2.2 (by decide) (by decide)

/-! ## C3: Terminal-strategy quoting round-trip -/

theorem parseQuoted_escape (l : List Char) (hb : '\\' ∉ l) :
    parseQuoted (escapeQuotes l ++ ['"']) = some (l, []) := by
  induction l with
  | nil => rfl
  | cons c t ih =>
      have hbt : '\\' ∉ t := fun h => hb (List.mem_cons_of_mem _ h)
      have hc : c ≠ '\\' := fun h => hb (h ▸ List.mem_cons_self c t)
      by_cases hq : c = '"'
      · subst hq
        simp only [escapeQuotes, if_pos rfl, List.cons_append]
        rw [parseQuoted.eq_def]
        simp [decodeEscape, ih hbt]
      · simp only [escapeQuotes, hq, if_false, ite_false, List.cons_append]
        rw [parseQuoted.eq_def]
        simp [hq, hc, ih hbt]

/-- C3 counterexample: for the command `a\"`, which contains a double
quote, escaping only the quote and parsing the `do script` literal back
does not return the original command (the backslash swallows the escape). -/
theorem quoting_counterexample :
    ('"' ∈ ("a\\\"" : String).data) ∧
    parseQuoted ((doScriptLine "a\\\"").data.drop 15) ≠
      some (("a\\\"" : String).data, []) := by
  decide

/-- C3 amended: for every assembled command containing a double quote but
no backslash, escaping the quotes and embedding the result in the quoted
`do script "..."` literal, then parsing that literal back by the script
host's quoting rules, returns exactly the original command with nothing
left over (15 characters is the length of the literal's fixed opening
`    do script "`). -/
theorem quoting_roundtrip (cmd : String) (_hq : '"' ∈ cmd.data)
    (hb : '\\' ∉ cmd.data) :
    parseQuoted ((doScriptLine cmd).data.drop 15) = some (cmd.data, []) := by
  have hdata : (doScriptLine cmd).data =
      ("    do script \"" : String).data ++ (escapeQuotes cmd.data ++ ['"']) := by
    show (("    do script \"" ++ String.mk (escapeQuotes cmd.data)) ++ "\"").data = _
    rw [String.data_append, String.data_append, List.append_assoc]
  have h15 : (("    do script \"" : String).data).length = 15 := rfl
  rw [hdata, ← h15, List.drop_left]
  exact parseQuoted_escape cmd.data hb

/-- Witness for C3 at the concrete command `echo "hi"`. -/
theorem quoting_roundtrip_witness :
    parseQuoted ((doScriptLine "echo \"hi\"").data.drop 15) =
      some (("echo \"hi\"" : String).data, []) :=
  quoting_roundtrip "echo \"hi\"" (by decide) (by decide)

/-! ## C10: the workflow COMMAND_STRING element -/

theorem xmlUnescape_cons (c : Char) (xs : List Char) (h : c ≠ '&') :
    xmlUnescape (c :: xs) = c :: xmlUnescape xs := by
  simp [xmlUnescape, xmlUnescapeAux, h]

theorem xmlUnescape_clean_append (l r : List Char) (h : ∀ c ∈ l, c ≠ '&') :
    xmlUnescape (l ++ r) = l ++ xmlUnescape r := by
  induction l with
  | nil => simp
  | cons c t ih =>
      have hc : c ≠ '&' := h c (List.mem_cons_self c t)
      have ht : ∀ x ∈ t, x ≠ '&' := fun x hx => h x (List.mem_cons_of_mem _ hx)
      simp only [List.cons_append, xmlUnescape_cons c (t ++ r) hc, ih ht]

/-- C10: the workflow document embeds the `COMMAND_STRING` element as
`wfPre ++ commandStringElement cmd ++ wfPost` with the command inserted
verbatim (no XML escaping) and the fixed suffix XML-entity-escaped; for
every command free of the XML-special characters, entity-decoding the
element content yields the command followed by ` > /dev/null 2>&1 &`. -/
theorem workflow_command_string (cmd : String)
    (h : ∀ c ∈ cmd.data, c ≠ '<' ∧ c ≠ '>' ∧ c ≠ '&') :
    workflowContent cmd = wfPre ++ commandStringElement cmd ++ wfPost ∧
    (commandStringElement cmd).data =
      cmd.data ++ (" &gt; /dev/null 2&gt;&amp;1 &amp;" : String).data ∧
    xmlUnescape (commandStringElement cmd).data =
      cmd.data ++ (" > /dev/null 2>&1 &" : String).data := by
  have hdata : (commandStringElement cmd).data =
      cmd.data ++ (" &gt; /dev/null 2&gt;&amp;1 &amp;" : String).data :=
    String.data_append _ _
  refine ⟨rfl, hdata, ?_⟩
  rw [hdata, xmlUnescape_clean_append _ _ (fun c hc => (h c hc).2.2)]
  congr 1

/-- Witness for C10 at a concrete assembled command. -/
theorem workflow_command_string_witness :
    xmlUnescape (commandStringElement "/usr/bin/python3 /home/u/hello.py --x 1").data =
      ("/usr/bin/python3 /home/u/hello.py --x 1" : String).data ++
        (" > /dev/null 2>&1 &" : String).data :=
  (workflow_command_string "/usr/bin/python3 /home/u/hello.py --x 1" (by decide)).2.2

/-! ## C2: the GUI bundle identity -/

theorem leBytes_length (k : Nat) : ∀ n, (MD5.leBytes n k).length = k := by
  induction k with
  | zero => intro n; rfl
  | succ k ih => intro n; simp [MD5.leBytes, ih]

theorem flatMap_byteHex_length (l : List Nat) :
    (l.flatMap MD5.byteHex).length = 2 * l.length := by
  induction l with
  | nil => rfl
  | cons a t ih => simp [MD5.byteHex, ih]; omega

theorem md5hexChars_length (msg : List Nat) : (MD5.md5hexChars msg).length = 32 := by
  simp only [MD5.md5hexChars]
  rw [flatMap_byteHex_length]
  simp [List.length_append, leBytes_length]

/-- C2 counterexample: two assembled commands with the same executable and
script that differ only in the final argument, yet the identity strings of
builds named `MyJob` coincide (the 8 lowercase hex digits kept from the
MD5 digest collide). -/
theorem bundle_identity_counterexample :
    buildCmd "/usr/bin/python3" "/Users/me/myjob.py" "--run 12282" ≠
      buildCmd "/usr/bin/python3" "/Users/me/myjob.py" "--run 26638" ∧
    bundleIdentifier "MyJob" (buildCmd "/usr/bin/python3" "/Users/me/myjob.py" "--run 12282") =
      bundleIdentifier "MyJob" (buildCmd "/usr/bin/python3" "/Users/me/myjob.py" "--run 26638") := by
  refine ⟨by decide, by decide⟩

/-- C2 amended: the bundle identity string is a pure function of the
shortcut name and the assembled command, and two identities coincide
exactly when the names coincide and the first 8 hex digits of the MD5
digests of the commands coincide; in particular identical
`(name, command)` pairs give identical identities across builds, but
distinct commands whose truncated digests collide share an identity. -/
theorem bundle_identity_characterization (n1 n2 c1 c2 : String) :
    bundleIdentifier n1 c1 = bundleIdentifier n2 c2 ↔
      (n1 = n2 ∧ (MD5.md5hexChars (strEncode c1)).take 8 =
                 (MD5.md5hexChars (strEncode c2)).take 8) := by
  constructor
  · intro h
    have hd := congrArg String.data h
    simp only [bundleIdentifier, bundle_id_base, String.data_append, List.append_assoc] at hd
    have hd2 := List.append_cancel_left hd
    have hlen : (("-" : String).data ++ ((MD5.md5hexChars (strEncode c1)).take 8)).length =
        (("-" : String).data ++ ((MD5.md5hexChars (strEncode c2)).take 8)).length := by
      simp [List.length_take, md5hexChars_length]
    obtain ⟨hn, hrest⟩ := List.append_inj' hd2 hlen
    exact ⟨String.ext hn, List.append_cancel_left hrest⟩
  · rintro ⟨rfl, h⟩
    simp [bundleIdentifier, bundle_id_base, h]

/-! ## C4: the bundle skeleton -/

theorem existsP_false_iff (fs : FS) (q : String) :
    fs.existsP q = false ↔ fs.lookupE q = none := by
  unfold FS.existsP
  cases fs.lookupE q <;> simp

theorem length_ne_imp_ne {a b : String} (h : a.length ≠ b.length) : a ≠ b :=
  fun he => h (he ▸ rfl)

theorem skeleton_lengths (dest : String) :
    (pjoin dest "Contents").length = dest.length + 9 ∧
    (pjoin (pjoin dest "Contents") "MacOS").length = dest.length + 15 ∧
    (pjoin (pjoin dest "Contents") "Resources").length = dest.length + 19 := by
  have h1 : ("Contents" : String).length = 8 := rfl
  have h2 : ("MacOS" : String).length = 5 := rfl
  have h3 : ("Resources" : String).length = 9 := rfl
  refine ⟨?_, ?_, ?_⟩ <;> simp [pjoin_length, h1, h2, h3] <;> omega

theorem underEq_skeleton (dest : String) :
    ∀ q ∈ skeletonPaths dest, underEq dest q = true := by
  intro q hq
  simp only [skeletonPaths, List.mem_cons, List.not_mem_nil, or_false] at hq
  rcases hq with rfl | rfl | rfl | rfl
  · exact underEq_self _
  · exact underEq_pjoin _ _
  · rw [pjoin_assoc]; exact underEq_pjoin _ _
  · rw [pjoin_assoc]; exact underEq_pjoin _ _

/-- Core lemma: under a parent-closed starting filesystem, the skeleton
phase succeeds, the paths at or under `dest` afterwards are exactly the
four directories, and every other path is untouched. -/
theorem skeleton_core (fs : FS) (dest : String)
    (hwf : ∀ q, isUnder dest q = true → fs.existsP q = true → fs.existsP dest = true) :
    ∃ fs2, bundleSkeleton fs dest = .ok fs2 ∧
      (∀ q, underEq dest q = true →
         fs2.lookupE q = if q ∈ skeletonPaths dest then some FSEntry.dir else none) ∧
      (∀ q, underEq dest q = false → fs2.lookupE q = fs.lookupE q) := by
  obtain ⟨hl1, hl2, hl3⟩ := skeleton_lengths dest
  set pC := pjoin dest "Contents" with hpC
  set pM := pjoin (pjoin dest "Contents") "MacOS" with hpM
  set pR := pjoin (pjoin dest "Contents") "Resources" with hpR
  have neCd : pC ≠ dest := length_ne_imp_ne (by omega)
  have neMd : pM ≠ dest := length_ne_imp_ne (by omega)
  have neRd : pR ≠ dest := length_ne_imp_ne (by omega)
  have neMC : pM ≠ pC := length_ne_imp_ne (by omega)
  have neRC : pR ≠ pC := length_ne_imp_ne (by omega)
  have neRM : pR ≠ pM := length_ne_imp_ne (by omega)
  set base := if fs.existsP dest then fs.rmtree dest else fs with hbase
  -- at or under `dest`, nothing survives into `base`
  have hnone : ∀ q, underEq dest q = true → base.lookupE q = none := by
    intro q hq
    by_cases hd : fs.existsP dest = true
    · simp only [hbase, hd, if_true]
      rw [lookupE_rmtree, if_pos hq]
    · have hd' : fs.existsP dest = false := by simpa using hd
      simp only [hbase, hd', Bool.false_eq_true, if_false]
      simp only [underEq, Bool.or_eq_true, decide_eq_true_eq] at hq
      rcases hq with rfl | hu
      · exact (existsP_false_iff fs q).mp hd'
      · refine (existsP_false_iff fs q).mp ?_
        by_cases hx : fs.existsP q = true
        · exact absurd (hwf q hu hx) (by simp [hd'])
        · simpa using hx
  have hframe : ∀ q, underEq dest q = false → base.lookupE q = fs.lookupE q := by
    intro q hq
    by_cases hd : fs.existsP dest = true
    · simp only [hbase, hd, if_true]
      rw [lookupE_rmtree, if_neg (by simp [hq])]
    · have hd' : fs.existsP dest = false := by simpa using hd
      simp [hbase, hd']
  -- the four mkdir calls succeed in sequence
  have e0 : base.existsP dest = false := by
    rw [existsP_false_iff]; exact hnone dest (underEq_self dest)
  set b1 := base.insertE dest .dir with hb1
  have e1 : b1.existsP pC = false := by
    rw [existsP_false_iff, hb1, lookupE_insertE, if_neg neCd]
    exact hnone pC (underEq_skeleton dest pC (by simp [skeletonPaths]))
  set b2 := b1.insertE pC .dir with hb2
  have e2 : b2.existsP pM = false := by
    rw [existsP_false_iff, hb2, lookupE_insertE, if_neg neMC, hb1, lookupE_insertE,
      if_neg neMd]
    exact hnone pM (underEq_skeleton dest pM (by simp [skeletonPaths]))
  set b3 := b2.insertE pM .dir with hb3
  have e3 : b3.existsP pR = false := by
    rw [existsP_false_iff, hb3, lookupE_insertE, if_neg neRM, hb2, lookupE_insertE,
      if_neg neRC, hb1, lookupE_insertE, if_neg neRd]
    exact hnone pR (underEq_skeleton dest pR (by simp [skeletonPaths]))
  refine ⟨((b3.insertE pR .dir : FS)), ?_, ?_, ?_⟩
  · simp only [bundleSkeleton, ← hbase, ← hpC, ← hpM, ← hpR, bind, Except.bind,
      mkdir_ok base dest e0, ← hb1, mkdir_ok b1 pC e1, ← hb2,
      mkdir_ok b2 pM e2, ← hb3, mkdir_ok b3 pR e3]
    rfl
  · intro q hq
    by_cases c4 : q = pR
    · subst c4
      rw [lookupE_insertE, if_pos rfl, if_pos (by simp [skeletonPaths])]
    by_cases c3 : q = pM
    · subst c3
      rw [lookupE_insertE, if_neg c4, hb3, lookupE_insertE, if_pos rfl,
        if_pos (by simp [skeletonPaths])]
    by_cases c2 : q = pC
    · subst c2
      rw [lookupE_insertE, if_neg c4, hb3, lookupE_insertE, if_neg c3, hb2,
        lookupE_insertE, if_pos rfl, if_pos (by simp [skeletonPaths])]
    by_cases c1 : q = dest
    · subst c1
      rw [lookupE_insertE, if_neg c4, hb3, lookupE_insertE, if_neg c3, hb2,
        lookupE_insertE, if_neg c2, hb1, lookupE_insertE, if_pos rfl,
        if_pos (by simp [skeletonPaths])]
    · rw [lookupE_insertE, if_neg c4, hb3, lookupE_insertE, if_neg c3, hb2,
        lookupE_insertE, if_neg c2, hb1, lookupE_insertE, if_neg c1,
        if_neg (by simp [skeletonPaths, c1, c2, c3, c4])]
      exact hnone q hq
  · intro q hq
    have q4 : q ≠ pR := fun he =>
      by simp [he, underEq_skeleton dest pR (by simp [skeletonPaths])] at hq
    have q3 : q ≠ pM := fun he =>
      by simp [he, underEq_skeleton dest pM (by simp [skeletonPaths])] at hq
    have q2 : q ≠ pC := fun he =>
      by simp [he, underEq_skeleton dest pC (by simp [skeletonPaths])] at hq
    have q1 : q ≠ dest := fun he => by simp [he, underEq_self dest] at hq
    rw [lookupE_insertE, if_neg q4, hb3, lookupE_insertE, if_neg q3, hb2,
      lookupE_insertE, if_neg q2, hb1, lookupE_insertE, if_neg q1]
    exact hframe q hq

/-- C4: the bundle skeleton is destructive-idempotent: any existing entry
at the destination is removed recursively, then exactly the four
directories (the destination plus `Contents`, `Contents/MacOS`,
`Contents/Resources`) exist at or under the destination, every other path
is untouched, and a second run at the same destination succeeds and
changes nothing at or under the destination — no leftover entries from a
prior build.  (`hwf` is filesystem well-formedness: an entry strictly
under `dest` cannot exist unless `dest` itself does.) -/
theorem skeleton_destructive_idempotent (fs : FS) (dest : String)
    (hwf : ∀ q, isUnder dest q = true → fs.existsP q = true → fs.existsP dest = true) :
    ∃ fs2, bundleSkeleton fs dest = .ok fs2 ∧
      (∀ q, underEq dest q = true →
         fs2.lookupE q = if q ∈ skeletonPaths dest then some FSEntry.dir else none) ∧
      (∀ q, underEq dest q = false → fs2.lookupE q = fs.lookupE q) ∧
      (∃ fs3, bundleSkeleton fs2 dest = .ok fs3 ∧
         ∀ q, underEq dest q = true → fs3.lookupE q = fs2.lookupE q) := by
  obtain ⟨fs2, h1, h2, h3⟩ := skeleton_core fs dest hwf
  refine ⟨fs2, h1, h2, h3, ?_⟩
  have hdest : fs2.lookupE dest = some FSEntry.dir := by
    have := h2 dest (underEq_self dest)
    simpa [skeletonPaths] using this
  have hwf2 : ∀ q, isUnder dest q = true → fs2.existsP q = true →
      fs2.existsP dest = true := by
    intro q _ _
    simp [FS.existsP, hdest]
  obtain ⟨fs3, g1, g2, _⟩ := skeleton_core fs2 dest hwf2
  exact ⟨fs3, g1, fun q hq => by rw [g2 q hq, h2 q hq]⟩

/-- Witness for C4 at the concrete filesystem `fsW` and destination
`/home/u/Desktop/Hello.app`. -/
theorem skeleton_destructive_idempotent_witness :
    ∃ fs2, bundleSkeleton fsW "/home/u/Desktop/Hello.app" = .ok fs2 ∧
      (∀ q, underEq "/home/u/Desktop/Hello.app" q = true →
         fs2.lookupE q =
           if q ∈ skeletonPaths "/home/u/Desktop/Hello.app" then some FSEntry.dir
           else none) ∧
      (∀ q, underEq "/home/u/Desktop/Hello.app" q = false →
         fs2.lookupE q = fsW.lookupE q) ∧
      (∃ fs3, bundleSkeleton fs2 "/home/u/Desktop/Hello.app" = .ok fs3 ∧
         ∀ q, underEq "/home/u/Desktop/Hello.app" q = true →
           fs3.lookupE q = fs2.lookupE q) := by
  apply skeleton_destructive_idempotent
  intro q h1 h2
  by_cases e1 : q = "/icons/py.icns"
  · rw [e1] at h1; exact absurd h1 (by decide)
  by_cases e2 : q = "/home/u/Desktop"
  · rw [e2] at h1; exact absurd h1 (by decide)
  by_cases e3 : q = "/home/u"
  · rw [e3] at h1; exact absurd h1 (by decide)
  by_cases e4 : q = "/System/Library/CoreServices/Automator Application Stub.app/Contents/MacOS/Automator Application Stub"
  · rw [e4] at h1; exact absurd h1 (by decide)
  · exfalso
    simp [fsW, FS.existsP, FS.lookupE, e1, e2, e3, e4] at h2

/-! ## C5: the stub probe -/

theorem pjoin_last (x y : String) (c : Char) (h : y.data.getLast? = some c) :
    (pjoin x y).data.getLast? = some c := by
  rw [pjoin_data, List.getLast?_append]
  cases hy : y.data with
  | nil => rw [hy] at h; cases h
  | cons a t =>
      rw [hy] at h
      rw [List.getLast?_cons_cons, h]
      rfl

theorem ne_of_last {a b : String} {c d : Char} (ha : a.data.getLast? = some c)
    (hb : b.data.getLast? = some d) (h : c ≠ d) : a ≠ b := by
  intro he
  subst he
  rw [ha] at hb
  exact h (Option.some.inj hb)

theorem guiBranch_no_stub (mode : Nat) (scut : Scut) (dest cmd : String) (fs : FS)
    (h1 : fs.existsP stubA = false) (h2 : fs.existsP stubB = false) :
    guiBranch mode scut dest cmd fs = .error stubErrorMsg := by
  have nwA : stubA ≠ pjoin (pjoin (pjoin dest "Contents") "Resources") "document.wflow" :=
    @ne_of_last stubA _ 'b' 'w' (by decide) (pjoin_last _ _ 'w' (by decide)) (by decide)
  have niA : stubA ≠ pjoin (pjoin dest "Contents") "Info.plist" :=
    @ne_of_last stubA _ 'b' 't' (by decide) (pjoin_last _ _ 't' (by decide)) (by decide)
  have nwB : stubB ≠ pjoin (pjoin (pjoin dest "Contents") "Resources") "document.wflow" :=
    @ne_of_last stubB _ 'r' 'w' (by decide) (pjoin_last _ _ 'w' (by decide)) (by decide)
  have niB : stubB ≠ pjoin (pjoin dest "Contents") "Info.plist" :=
    @ne_of_last stubB _ 'r' 't' (by decide) (pjoin_last _ _ 't' (by decide)) (by decide)
  have eA : (FS.writeFile mode
      (FS.writeFile mode fs
        (pjoin (pjoin (pjoin dest "Contents") "Resources") "document.wflow")
        (workflowContent cmd))
      (pjoin (pjoin dest "Contents") "Info.plist")
      (infoAutomator scut.name cmd)).existsP stubA = false := by
    rw [existsP_false_iff] at h1 ⊢
    rw [FS.writeFile, FS.writeFile, lookupE_insertE, if_neg niA, lookupE_insertE,
      if_neg nwA]
    exact h1
  have eB : (FS.writeFile mode
      (FS.writeFile mode fs
        (pjoin (pjoin (pjoin dest "Contents") "Resources") "document.wflow")
        (workflowContent cmd))
      (pjoin (pjoin dest "Contents") "Info.plist")
      (infoAutomator scut.name cmd)).existsP stubB = false := by
    rw [existsP_false_iff] at h2 ⊢
    rw [FS.writeFile, FS.writeFile, lookupE_insertE, if_neg niB, lookupE_insertE,
      if_neg nwB]
    exact h2
  have hfind : findStub (FS.writeFile mode
      (FS.writeFile mode fs
        (pjoin (pjoin (pjoin dest "Contents") "Resources") "document.wflow")
        (workflowContent cmd))
      (pjoin (pjoin dest "Contents") "Info.plist")
      (infoAutomator scut.name cmd)) = none := by
    rw [findStub, automator_stub_paths]
    rw [List.find?_cons_of_neg _ (by simp [eA]), List.find?_cons_of_neg _ (by simp [eB])]
    rfl
  simp only [guiBranch, installStub, hfind, bind, Except.bind]

/-- C5: the candidate stub locations are probed in their fixed order and
the first existing one is the probe result, which `installStub` copies
into the bundle's `Contents/MacOS/Application Stub` slot; when neither
location exists, the build step raises a `FileNotFoundError` whose exact
message tells the caller to use the Terminal strategy (`terminal=True`),
the whole GUI branch fails with that error, and no stub copy is
performed. -/
theorem stub_probe (fs : FS) (dest : String) :
    (fs.existsP stubA = true → findStub fs = some stubA) ∧
    (fs.existsP stubA = false → fs.existsP stubB = true → findStub fs = some stubB) ∧
    (∀ s, findStub fs = some s →
       installStub fs dest =
         fs.copy s (pjoin (pjoin (pjoin dest "Contents") "MacOS") "Application Stub")) ∧
    (fs.existsP stubA = false → fs.existsP stubB = false →
       installStub fs dest = .error stubErrorMsg ∧
       (∀ mode scut cmd, guiBranch mode scut dest cmd fs = .error stubErrorMsg)) ∧
    stubErrorMsg = "Could not find Automator Application Stub. This may not be supported on your macOS version. Please use terminal=True." := by
  refine ⟨?_, ?_, ?_, ?_, rfl⟩
  · intro h
    rw [findStub, automator_stub_paths]
    exact List.find?_cons_of_pos _ h
  · intro h1 h2
    rw [findStub, automator_stub_paths]
    rw [List.find?_cons_of_neg _ (by simp [h1])]
    exact List.find?_cons_of_pos _ h2
  · intro s hs
    rw [installStub, hs]
  · intro h1 h2
    have hfind : findStub fs = none := by
      rw [findStub, automator_stub_paths]
      rw [List.find?_cons_of_neg _ (by simp [h1]), List.find?_cons_of_neg _ (by simp [h2])]
      rfl
    exact ⟨by rw [installStub, hfind], fun mode scut cmd => guiBranch_no_stub mode scut dest cmd fs h1 h2⟩

/-- Witness for C5 at the concrete filesystem without any stub. -/
theorem stub_probe_witness :
    installStub fsNoStub "/home/u/Desktop/Hello.app" = .error stubErrorMsg :=
  (((stub_probe fsNoStub "/home/u/Desktop/Hello.app").2.2.2.1) (by decide) (by decide)).1

/-! ## C7: best-effort post-processing -/

theorem except_bind_ok {α β : Type} (a : α) (f : α → Except String β) :
    (Except.ok a >>= f : Except String β) = f a := rfl

theorem except_bind_error {α β : Type} (e : String) (f : α → Except String β) :
    ((Except.error e : Except String α) >>= f : Except String β) = .error e := rfl

theorem try_pass_ok (x : Except String Int) : tryPass x = .ok () := by
  cases x <;> rfl

theorem except_seq {β : Type} (x : Except String β) :
    ((pure PUnit.unit : Except String PUnit) >>= fun _ => x) = x := rfl

theorem postProcess_ok (env : Env) (terminal : Bool) (dest : String) :
    postProcess env terminal dest =
      .ok (["xattr", "-cr", dest] :: (if terminal then [] else [codesignArgs dest])) := by
  cases terminal <;>
    simp only [postProcess, try_pass_ok, except_bind_ok, Bool.not_true, Bool.not_false,
      if_true, if_false] <;> rfl

/-- C7: post-processing is best-effort and never fatal: every subprocess
outcome (completion with any exit code, or a raised exception) is
swallowed by the `try`/`except pass` wrapper; the build result does not
depend on the subprocess behaviour at all; and a successful build returns
the shortcut record having attempted exactly the quarantine-clear `xattr`
call, plus the `codesign` ad-hoc signing call only for the GUI strategy. -/
theorem post_processing_best_effort (env : Env) (scut : Scut) (terminal : Bool)
    (exe : Option String) (noexe : Bool) (fs : FS) :
    (∀ x, tryPass x = .ok ()) ∧
    (postProcess env terminal (destPath env scut) =
       .ok (["xattr", "-cr", destPath env scut] ::
            (if terminal then [] else [codesignArgs (destPath env scut)]))) ∧
    (∀ rp, make_shortcut { env with runProc := rp } scut terminal true exe noexe fs =
           make_shortcut env scut terminal true exe noexe fs) ∧
    (∀ out, make_shortcut env scut terminal true exe noexe fs = .ok out →
       out.result = some scut ∧
       out.procs = ["xattr", "-cr", destPath env scut] ::
         (if terminal then [] else [codesignArgs (destPath env scut)])) := by
  refine ⟨try_pass_ok, postProcess_ok env terminal (destPath env scut), ?_, ?_⟩
  · intro rp
    simp only [make_shortcut, selectExecutable, destPath, postProcess_ok]
  · intro out h
    simp only [make_shortcut, Bool.not_true, Bool.false_eq_true, if_false] at h
    cases hsk : bundleSkeleton (ensureDesktopDir fs scut.desktop_dir) (destPath env scut) with
    | error e => rw [hsk, except_bind_error] at h; cases h
    | ok fs2 =>
        rw [hsk, except_bind_ok, except_seq] at h
        cases terminal with
        | true =>
            rw [if_neg (by simp)] at h
            cases hbr : terminalBranch env.fileMode scut (destPath env scut)
                (buildCmd (selectExecutable env scut exe noexe).2
                  (selectExecutable env scut exe noexe).1 scut.arguments) fs2 with
            | error e => rw [hbr, except_bind_error] at h; cases h
            | ok fs3 =>
                rw [hbr, except_bind_ok, postProcess_ok, except_bind_ok] at h
                cases h
                exact ⟨rfl, rfl⟩
        | false =>
            rw [if_pos (by simp)] at h
            cases hbr : guiBranch env.fileMode scut (destPath env scut)
                (buildCmd (selectExecutable env scut exe noexe).2
                  (selectExecutable env scut exe noexe).1 scut.arguments) fs2 with
            | error e => rw [hbr, except_bind_error] at h; cases h
            | ok fs3 =>
                rw [hbr, except_bind_ok, postProcess_ok, except_bind_ok] at h
                cases h
                exact ⟨rfl, rfl⟩

/-- Witness for C7: the concrete Terminal-strategy build succeeds, returns
the record and attempts exactly the quarantine-clear invocation. -/
theorem post_processing_best_effort_witness :
    outTermW.result = some scutW ∧
    outTermW.procs = ["xattr", "-cr", destPath envW scutW] ::
      (if true then [] else [codesignArgs (destPath envW scutW)]) :=
  (post_processing_best_effort envW scutW true none false fsW).2.2.2 outTermW (by rfl)

/-! ## C8: the launcher is marked executable -/

theorem terminalBranch_launcher (mode : Nat) (scut : Scut) (dest cmd : String)
    (fs fs3 : FS) (h : terminalBranch mode scut dest cmd fs = .ok fs3) :
    fs3.lookupE (launcherPath dest scut.name) =
      some (.file (launcherText cmd) 493) := by
  have hne : launcherPath dest scut.name ≠
      pjoin (pjoin (pjoin dest "Contents") "Resources") (scut.name ++ ".icns") := by
    apply length_ne_imp_ne
    have h5 : (scut.name ++ ".icns").length = scut.name.length + 5 := by
      rw [String.length_append]; rfl
    obtain ⟨hl1, hl2, hl3⟩ := skeleton_lengths dest
    simp only [launcherPath, pjoin_length, h5, hl2, hl3]
    omega
  simp only [terminalBranch] at h
  have hlk : (FS.writeFile mode
      (FS.writeFile mode fs (pjoin (pjoin dest "Contents") "Info.plist")
        (infoTerminal scut.description scut.name))
      (launcherPath dest scut.name) (launcherText cmd)).lookupE
        (launcherPath dest scut.name) = some (.file (launcherText cmd) mode) := by
    rw [FS.writeFile, lookupE_insertE, if_pos rfl]
  rw [FS.chmod, hlk, except_bind_ok] at h
  simp only [FS.copy] at h
  cases hic : ((FS.writeFile mode
      (FS.writeFile mode fs (pjoin (pjoin dest "Contents") "Info.plist")
        (infoTerminal scut.description scut.name))
      (launcherPath dest scut.name) (launcherText cmd)).insertE
        (launcherPath dest scut.name)
        (.file (launcherText cmd) 493)).lookupE scut.icon with
  | none => rw [hic] at h; cases h
  | some e =>
      cases e with
      | dir => rw [hic] at h; cases h
      | file c m =>
          rw [hic] at h
          cases h
          rw [lookupE_insertE, if_neg hne, lookupE_insertE, if_pos rfl]


/-- C8: every successful Terminal-strategy build leaves the launcher at
`Contents/MacOS/<name>` containing the AppleScript launcher text with
mode `0o755` = 493 (owner, group and other execute set). -/
theorem launcher_made_executable (env : Env) (scut : Scut) (exe : Option String)
    (noexe : Bool) (fs : FS) :
    ∀ out, make_shortcut env scut true true exe noexe fs = .ok out →
      out.fs.lookupE (launcherPath (destPath env scut) scut.name) =
        some (.file (launcherText (assembledCommand env scut exe noexe)) 493) := by
  intro out h
  simp only [make_shortcut, Bool.not_true, Bool.false_eq_true, if_false] at h
  cases hsk : bundleSkeleton (ensureDesktopDir fs scut.desktop_dir) (destPath env scut) with
  | error e => rw [hsk, except_bind_error] at h; cases h
  | ok fs2 =>
      rw [hsk, except_bind_ok] at h
      cases hbr : terminalBranch env.fileMode scut (destPath env scut)
          (buildCmd (selectExecutable env scut exe noexe).2
            (selectExecutable env scut exe noexe).1 scut.arguments) fs2 with
      | error e => rw [hbr, except_bind_error] at h; cases h
      | ok fs3 =>
          rw [hbr, except_bind_ok, postProcess_ok, except_bind_ok] at h
          cases h
          exact terminalBranch_launcher env.fileMode scut (destPath env scut) _ fs2 fs3 hbr

/-- Witness for C8 at the concrete Terminal-strategy build. -/
theorem launcher_made_executable_witness :
    outTermW.fs.lookupE (launcherPath (destPath envW scutW) scutW.name) =
      some (.file (launcherText (assembledCommand envW scutW none false)) 493) :=
  launcher_made_executable envW scutW none false fsW outTermW (by rfl)

/-! ## C9: implicit creation of the desktop directory -/

theorem mkdirIfMissing_exists (fs : FS) (a q : String) (h : fs.existsP q = true) :
    (mkdirIfMissing fs a).existsP q = true := by
  rw [mkdirIfMissing]
  split
  · exact h
  · rw [FS.existsP, lookupE_insertE]
    by_cases hq : q = a
    · simp [hq]
    · rw [if_neg hq]; exact h

theorem foldl_mkdirs_exists (l : List String) (fs : FS) (q : String) :
    (q ∈ l → q ≠ "" → (l.foldl mkdirIfMissing fs).existsP q = true) ∧
    (fs.existsP q = true → (l.foldl mkdirIfMissing fs).existsP q = true) := by
  induction l generalizing fs with
  | nil => exact ⟨fun h => absurd h (List.not_mem_nil q), fun h => h⟩
  | cons a t ih =>
      rw [List.foldl_cons]
      constructor
      · intro hm hne
        rcases List.mem_cons.mp hm with rfl | ht
        · apply (ih (mkdirIfMissing fs q)).2
          rw [mkdirIfMissing]
          split
          · rename_i hcond
            rcases Bool.or_eq_true _ _ |>.mp hcond with hx | hx
            · exact hx
            · exact absurd (by simpa using hx) hne
          · rw [FS.existsP, lookupE_insertE, if_pos rfl]; rfl
        · exact (ih _).1 ht hne
      · intro h
        exact (ih _).2 (mkdirIfMissing_exists fs a q h)

theorem mkdirIfMissing_frame (fs : FS) (a q : String) (h : q ≠ a) :
    (mkdirIfMissing fs a).lookupE q = fs.lookupE q := by
  rw [mkdirIfMissing]
  split
  · rfl
  · rw [lookupE_insertE, if_neg h]

theorem foldl_mkdirs_frame (l : List String) (fs : FS) (q : String) (h : q ∉ l) :
    (l.foldl mkdirIfMissing fs).lookupE q = fs.lookupE q := by
  induction l generalizing fs with
  | nil => rfl
  | cons a t ih =>
      have h1 : q ≠ a := fun he => h (he ▸ List.mem_cons_self a t)
      have h2 : q ∉ t := fun ht => h (List.mem_cons_of_mem a ht)
      rw [List.foldl_cons, ih _ h2, mkdirIfMissing_frame fs a q h1]

theorem makedirs_exists (fs : FS) (p : String) :
    (∀ q, q ∈ ancestorPaths p → q ≠ "" → (fs.makedirs p).existsP q = true) ∧
    (fs.makedirs p).existsP p = true := by
  constructor
  · intro q hm hne
    rw [FS.makedirs, FS.existsP, lookupE_insertE]
    by_cases hq : q = p
    · simp [hq]
    · rw [if_neg hq]
      exact (foldl_mkdirs_exists (ancestorPaths p) fs q).1 hm hne
  · rw [FS.makedirs, FS.existsP, lookupE_insertE, if_pos rfl]; rfl

/-- C9 (implicit): when `desktop=true` and the resolved desktop (or
desktop-subfolder) directory does not yet exist, lines 90–91 create it —
with any missing parent directories — before the bundle is built inside
it; when it exists the filesystem is untouched by this step, and the step
never touches paths other than the directory and its ancestors. -/
theorem desktop_dir_created (fs : FS) (p : String) :
    (fs.existsP p = true → ensureDesktopDir fs p = fs) ∧
    (fs.existsP p = false →
       (ensureDesktopDir fs p).existsP p = true ∧
       (∀ q, q ∈ ancestorPaths p → q ≠ "" → (ensureDesktopDir fs p).existsP q = true) ∧
       (∀ q, q ∉ ancestorPaths p → q ≠ p → (ensureDesktopDir fs p).lookupE q = fs.lookupE q)) := by
  constructor
  · intro h
    rw [ensureDesktopDir, if_pos h]
  · intro h
    rw [ensureDesktopDir, if_neg (by simp [h])]
    refine ⟨(makedirs_exists fs p).2, fun q hm hne => (makedirs_exists fs p).1 q hm hne, ?_⟩
    intro q hm hne
    rw [FS.makedirs, lookupE_insertE, if_neg hne, foldl_mkdirs_frame _ _ _ hm]

/-- Witness for C9: creating a two-level missing desktop subfolder also
creates its parent. -/
theorem desktop_dir_created_witness :
    (ensureDesktopDir fsNoStub "/home/u/Stuff/sub").existsP "/home/u/Stuff/sub" = true ∧
    (ensureDesktopDir fsNoStub "/home/u/Stuff/sub").existsP "/home/u/Stuff" = true := by
  have h := (desktop_dir_created fsNoStub "/home/u/Stuff/sub").2 (by decide)
  exact ⟨h.1, h.2.1 "/home/u/Stuff" (by decide) (by decide)⟩
